import Mathlib

/-!
# Verification of the AskMyNotes document pipeline

Shallow embedding of the core of the AskMyNotes study-assistant backend:

* `chunkText` / `chunkTextFuel` — the sliding-window chunker of
  `supabase/functions/process-document/index.ts` (`chunkText`, lines 8-17).
* `estimatePage` / `estimatedPagesOf` — the page-estimation heuristic
  (`estimatePage`, lines 19-21, and the `estimatedPages` computation, line 84).
* the text-extraction fallback pipeline (strip non-printables, collapse
  whitespace runs, discard short lines, placeholder on failure).
* the context assemblers of the chat function (`cumulativeLine` numbering)
  and of the study-set function (`idx * 50 + 1` numbering).
* the request handlers of the chat, study-set and document-processing
  functions, with the generation capability and JSON parsing abstracted
  as explicit parameters.

Text is modelled as `List Char`; JavaScript numbers used as loop indices are
modelled as `Int` where they can go negative, `Nat` otherwise.
-/

set_option maxRecDepth 8000
set_option linter.unusedVariables false

/-- JavaScript `String.prototype.slice` / `Array.prototype.slice` semantics on
a character list: negative indices count from the end, indices are clamped to
`[0, length]`, and the slice is the half-open interval `[start, stop)`. -/
def jsSlice (text : List Char) (start stop : Int) : List Char :=
  let len : Int := text.length
  let s := if start < 0 then max (len + start) 0 else min start len
  let t := if stop < 0 then max (len + stop) 0 else min stop len
  (text.take t.toNat).drop s.toNat

/-- The `while (start < text.length)` loop of `chunkText`
(process-document/index.ts lines 8-17), made total with an explicit fuel
parameter: `none` means the loop was still running when the fuel ran out
(so the source loop would not have terminated within `fuel` iterations).
Each iteration pushes `text.slice(start, min(start+chunkSize, len))` and
advances `start` by `chunkSize - overlap` (an `Int`, since the source uses
JavaScript numbers which go negative when `overlap > chunkSize`). -/
def chunkTextFuel (chunkSize overlap : Nat) (text : List Char) :
    Nat → Int → Option (List (List Char))
  | 0, start => if start < (text.length : Int) then none else some []
  | fuel + 1, start =>
    if start < (text.length : Int) then
      let stop := min (start + (chunkSize : Int)) (text.length : Int)
      (chunkTextFuel chunkSize overlap text fuel
          (start + ((chunkSize : Int) - (overlap : Int)))).map
        (fun rest => jsSlice text start stop :: rest)
    else some []

/-- `chunkText(text)` with the source's default parameters
`chunkSize = 1000`, `overlap = 200`.  Fuel `text.length` is enough:
the window advances by `800 ≥ 1` per iteration. -/
def chunkText (text : List Char) : List (List Char) :=
  (chunkTextFuel 1000 200 text text.length 0).getD []

/-- The closed form the chunker is claimed to satisfy: chunk `i` is
`text[800*i : 800*i + 1000]` clipped to the text, and there are
`⌈len/800⌉` chunks. -/
def expectedChunks (text : List Char) : List (List Char) :=
  (List.range ((text.length + 799) / 800)).map
    (fun i => jsSlice text ((800 * i : Nat) : Int)
      (min ((800 * i + 1000 : Nat) : Int) (text.length : Int)))

theorem chunkTextFuel_of_done (cs ov : Nat) (text : List Char) (fuel : Nat) (start : Int)
    (h : ¬ start < (text.length : Int)) :
    chunkTextFuel cs ov text fuel start = some [] := by
  cases fuel <;> simp [chunkTextFuel, h]

theorem chunkTextFuel_succ_of_lt (cs ov : Nat) (text : List Char) (fuel : Nat) (start : Int)
    (h : start < (text.length : Int)) :
    chunkTextFuel cs ov text (fuel + 1) start =
      (chunkTextFuel cs ov text fuel (start + ((cs : Int) - (ov : Int)))).map
        (fun rest =>
          jsSlice text start (min (start + (cs : Int)) (text.length : Int)) :: rest) := by
  simp [chunkTextFuel, h]

theorem chunkTextFuel_spec (text : List Char) :
    ∀ fuel i, (text.length + 799) / 800 ≤ i + fuel →
      chunkTextFuel 1000 200 text fuel ((800 * i : Nat) : Int) =
        some ((List.range ((text.length + 799) / 800 - i)).map
          (fun j => jsSlice text ((800 * (i + j) : Nat) : Int)
            (min ((800 * (i + j) + 1000 : Nat) : Int) (text.length : Int)))) := by
  have hdm := Nat.div_add_mod (text.length + 799) 800
  have hml : (text.length + 799) % 800 < 800 := Nat.mod_lt _ (by norm_num)
  intro fuel
  induction fuel with
  | zero =>
    intro i hi
    have hcount : (text.length + 799) / 800 ≤ i := by omega
    have hge : text.length ≤ 800 * i := by omega
    have hguard : ¬ ((800 * i : Nat) : Int) < (text.length : Int) := by
      simp only [not_lt]
      exact_mod_cast hge
    rw [chunkTextFuel_of_done 1000 200 text 0 _ hguard]
    simp [show (text.length + 799) / 800 - i = 0 from by omega]
  | succ fuel ih =>
    intro i hi
    by_cases hlt : 800 * i < text.length
    · have hguard : ((800 * i : Nat) : Int) < (text.length : Int) := by
        exact_mod_cast hlt
      have hicount : i < (text.length + 799) / 800 := by omega
      have hstep : ((800 * i : Nat) : Int) + (((1000 : Nat) : Int) - ((200 : Nat) : Int)) =
          ((800 * (i + 1) : Nat) : Int) := by
        push_cast
        ring
      have ihnext := ih (i + 1) (by omega)
      have hsub : (text.length + 799) / 800 - i =
          ((text.length + 799) / 800 - (i + 1)) + 1 := by omega
      rw [chunkTextFuel_succ_of_lt 1000 200 text fuel _ hguard, hstep, ihnext,
        Option.map_some']
      rw [hsub, List.range_succ_eq_map, List.map_cons, List.map_map]
      refine congrArg some (congrArg₂ List.cons ?_ ?_)
      · simp only [Nat.add_zero]
        norm_cast
      · apply List.map_congr_left
        intro a _
        simp only [Function.comp_apply, Nat.succ_eq_add_one]
        rw [show i + (a + 1) = i + 1 + a from by omega]
    · have hguard : ¬ ((800 * i : Nat) : Int) < (text.length : Int) := by
        simp only [not_lt]
        exact_mod_cast Nat.le_of_not_lt hlt
      have hcount : (text.length + 799) / 800 ≤ i := by omega
      rw [chunkTextFuel_of_done 1000 200 text _ _ hguard]
      simp [show (text.length + 799) / 800 - i = 0 from by omega]

/-- Claim **C3**: with the source's parameters (`size = 1000`, `overlap = 200`)
the chunker follows the sliding window: the chunk at ordinal `i` is
`text[i*800 : i*800 + 1000]` clipped to the text, there are `⌈len/800⌉`
chunks (the loop stops exactly when `start ≥ len`, witnessed by the result
being independent of any sufficient fuel), and a non-empty text yields at
least one chunk. -/
theorem C3_chunker_sliding_window (text : List Char) (fuel : Nat)
    (hne : text ≠ []) (hfuel : text.length ≤ fuel) :
    chunkTextFuel 1000 200 text fuel 0 = some (expectedChunks text) ∧
    chunkText text = expectedChunks text ∧
    chunkText text ≠ [] := by
  have hlen : 0 < text.length := List.length_pos.mpr hne
  have hcount_le : (text.length + 799) / 800 ≤ text.length := by
    have h1 : text.length + 799 ≤ 800 * text.length := by omega
    calc (text.length + 799) / 800 ≤ 800 * text.length / 800 :=
          Nat.div_le_div_right h1
      _ = text.length := Nat.mul_div_cancel_left _ (by norm_num)
  have hcount_pos : 1 ≤ (text.length + 799) / 800 := by
    rw [Nat.le_div_iff_mul_le (by norm_num)]
    omega
  have hzero : ((800 * 0 : Nat) : Int) = (0 : Int) := by norm_num
  have hfold : ∀ f, text.length ≤ f →
      chunkTextFuel 1000 200 text f 0 = some (expectedChunks text) := by
    intro f hf
    have main := chunkTextFuel_spec text f 0 (by omega)
    rw [hzero] at main
    simp only [Nat.zero_add, Nat.sub_zero] at main
    rw [main]
    rfl
  refine ⟨hfold fuel hfuel, ?_, ?_⟩
  · rw [chunkText, hfold text.length le_rfl]
    rfl
  · rw [chunkText, hfold text.length le_rfl]
    have : (expectedChunks text).length = (text.length + 799) / 800 := by
      simp [expectedChunks]
    intro hcon
    rw [Option.getD_some] at hcon
    rw [hcon] at this
    simp at this
    omega

/-- Closed-input witness for `C3_chunker_sliding_window`. -/
theorem C3_witness :
    (['n', 'o', 't', 'e', 's'] : List Char) ≠ [] ∧ (5 : Nat) ≤ 5 ∧
      (chunkTextFuel 1000 200 ['n', 'o', 't', 'e', 's'] 5 0 =
          some (expectedChunks ['n', 'o', 't', 'e', 's']) ∧
        chunkText ['n', 'o', 't', 'e', 's'] = expectedChunks ['n', 'o', 't', 'e', 's'] ∧
        chunkText ['n', 'o', 't', 'e', 's'] ≠ []) :=
  ⟨by decide, by decide, C3_chunker_sliding_window _ 5 (by decide) (by decide)⟩

theorem chunkTextFuel_isSome_of_overlap_lt (cs ov : Nat) (text : List Char) :
    ∀ (fuel : Nat) (start : Int),
      (text.length : Int) ≤ start + (fuel : Int) * ((cs : Int) - (ov : Int)) →
      (chunkTextFuel cs ov text fuel start).isSome = true := by
  intro fuel
  induction fuel with
  | zero =>
    intro start h
    have hg : ¬ start < (text.length : Int) := by
      push_cast at h
      omega
    rw [chunkTextFuel_of_done _ _ _ _ _ hg]
    rfl
  | succ fuel ih =>
    intro start h
    by_cases hg : start < (text.length : Int)
    · rw [chunkTextFuel_succ_of_lt _ _ _ _ _ hg, Option.isSome_map']
      apply ih
      have hexp : ((fuel + 1 : Nat) : Int) * ((cs : Int) - (ov : Int)) =
          (fuel : Int) * ((cs : Int) - (ov : Int)) + ((cs : Int) - (ov : Int)) := by
        push_cast
        ring
      rw [hexp] at h
      linarith
    · rw [chunkTextFuel_of_done _ _ _ _ _ hg]
      rfl

theorem chunkTextFuel_none_of_size_le (cs ov : Nat) (text : List Char)
    (hso : cs ≤ ov) (hne : text ≠ []) :
    ∀ fuel (start : Int), start ≤ 0 → chunkTextFuel cs ov text fuel start = none := by
  have hlen : 0 < text.length := List.length_pos.mpr hne
  intro fuel
  induction fuel with
  | zero =>
    intro start hs
    have hg : start < (text.length : Int) := lt_of_le_of_lt hs (by exact_mod_cast hlen)
    simp [chunkTextFuel, hg]
  | succ fuel ih =>
    intro start hs
    have hg : start < (text.length : Int) := lt_of_le_of_lt hs (by exact_mod_cast hlen)
    rw [chunkTextFuel_succ_of_lt _ _ _ _ _ hg,
      ih (start + ((cs : Int) - (ov : Int))) (by omega)]
    rfl

/-- Claim **C9**: when `overlap < size` the chunker's loop terminates on every
text (fuel equal to the text length already suffices, so the `while` loop
exits), while for any configuration with `overlap ≥ size` the window start
never advances past a non-empty text, so the loop never terminates — no
amount of fuel reaches the exit condition. `overlap < size` is therefore a
configuration precondition, not something recovered at runtime. -/
theorem C9_overlap_precondition (cs ov : Nat) (text : List Char) (fuel : Nat) :
    (ov < cs → (chunkTextFuel cs ov text text.length 0).isSome = true) ∧
    (cs ≤ ov → text ≠ [] → chunkTextFuel cs ov text fuel 0 = none) := by
  constructor
  · intro h
    apply chunkTextFuel_isSome_of_overlap_lt
    have hd : (1 : Int) ≤ (cs : Int) - (ov : Int) := by omega
    have hlen : (0 : Int) ≤ (text.length : Int) := Int.natCast_nonneg _
    calc (text.length : Int) ≤ (text.length : Int) * ((cs : Int) - (ov : Int)) :=
          le_mul_of_one_le_right hlen hd
      _ = 0 + (text.length : Int) * ((cs : Int) - (ov : Int)) := by ring
  · intro h1 h2
    exact chunkTextFuel_none_of_size_le cs ov text h1 h2 fuel 0 le_rfl

/-- Closed-input witness for `C9_overlap_precondition`: with the shipped
configuration (`1000`, `200`) the loop halts on `"hi"`, while the violating
configuration (`1000`, `1000`) never halts on it. -/
theorem C9_witness :
    (200 : Nat) < 1000 ∧
      (chunkTextFuel 1000 200 ['h', 'i'] (['h', 'i'] : List Char).length 0).isSome = true ∧
    (1000 : Nat) ≤ 1000 ∧ (['h', 'i'] : List Char) ≠ [] ∧
      chunkTextFuel 1000 1000 ['h', 'i'] 4 0 = none :=
  ⟨by decide, (C9_overlap_precondition 1000 200 ['h', 'i'] 4).1 (by decide),
    by decide, by decide,
    (C9_overlap_precondition 1000 1000 ['h', 'i'] 4).2 (by decide) (by decide)⟩

/-- `Math.max(1, Math.ceil(text.length / 3000))`
(process-document/index.ts line 84), with the JavaScript float division
modelled as exact rational division. -/
def estimatedPagesOf (len : Nat) : Int :=
  max 1 (Int.ceil ((len : ℚ) / 3000))

/-- `estimatePage(charIndex, totalChars, estimatedPages)`
(process-document/index.ts lines 19-21):
`Math.max(1, Math.ceil((charIndex / totalChars) * estimatedPages))`. -/
def estimatePage (charIndex totalChars : Nat) (estimatedPages : Int) : Int :=
  max 1 (Int.ceil (((charIndex : ℚ) / (totalChars : ℚ)) * (estimatedPages : ℚ)))

/-- One row of the `chunks` insert (process-document/index.ts lines 87-93). -/
structure ChunkRow where
  document_id : Nat
  subject_id : Nat
  content : List Char
  page_number : Int
  chunk_index : Nat
deriving DecidableEq, Repr

/-- The rows built for the bulk insert: chunk at ordinal `index` is stored
with `page_number = estimatePage(index * 800, text.length, estimatedPages)`
and `chunk_index = index`. -/
def chunkRows (documentId subjectId : Nat) (text : List Char) : List ChunkRow :=
  (chunkText text).enum.map (fun p =>
    ⟨documentId, subjectId, p.2,
      estimatePage (p.1 * 800) text.length (estimatedPagesOf text.length), p.1⟩)

theorem int_ceil_natCast_div (a b : Nat) (hb : 0 < b) :
    Int.ceil ((a : ℚ) / (b : ℚ)) = (((a + b - 1) / b : Nat) : Int) := by
  have hbq : (0 : ℚ) < (b : ℚ) := by exact_mod_cast hb
  have hdm : b * ((a + b - 1) / b) + (a + b - 1) % b = a + b - 1 :=
    Nat.div_add_mod (a + b - 1) b
  have hml : (a + b - 1) % b < b := Nat.mod_lt _ hb
  revert hdm hml
  generalize (a + b - 1) % b = r
  generalize hpq : b * ((a + b - 1) / b) = p
  intro hdm hml
  have hup : a ≤ p := by omega
  have hpb : p < a + b := by omega
  apply le_antisymm
  · rw [Int.ceil_le]
    push_cast
    rw [div_le_iff₀ hbq]
    calc (a : ℚ) ≤ (p : ℚ) := by exact_mod_cast hup
      _ = ((a + b - 1) / b : Nat) * (b : ℚ) := by
          rw [← hpq]
          push_cast
          ring
  · rw [Int.le_ceil_iff]
    have hqb : ((((a + b - 1) / b : Nat)) : ℚ) * (b : ℚ) = (p : ℚ) := by
      rw [← hpq]
      push_cast
      ring
    rw [Int.cast_natCast, lt_div_iff₀ hbq, sub_mul, one_mul, hqb]
    have hpbq : (p : ℚ) < (a : ℚ) + (b : ℚ) := by exact_mod_cast hpb
    linarith

theorem estimatedPagesOf_closed (len : Nat) (h : 1 ≤ len) :
    estimatedPagesOf len = (((len + 2999) / 3000 : Nat) : Int) := by
  have hceil := int_ceil_natCast_div len 3000 (by norm_num)
  simp only [Nat.cast_ofNat] at hceil
  rw [show len + 3000 - 1 = len + 2999 from by omega] at hceil
  have hpos : 1 ≤ (len + 2999) / 3000 := by
    rw [Nat.le_div_iff_mul_le (by norm_num)]
    omega
  rw [estimatedPagesOf, hceil, max_eq_right (by exact_mod_cast hpos)]

theorem estimatePage_closed (charIndex len P : Nat) (h : 1 ≤ len) :
    estimatePage charIndex len ((P : Nat) : Int) =
      ((max 1 ((charIndex * P + len - 1) / len) : Nat) : Int) := by
  have hlq : (0 : ℚ) < (len : ℚ) := by exact_mod_cast h
  have hmul : ((charIndex : ℚ) / (len : ℚ)) * (((P : Nat) : Int) : ℚ) =
      ((charIndex * P : Nat) : ℚ) / (len : ℚ) := by
    push_cast
    ring
  rw [estimatePage, hmul, int_ceil_natCast_div _ _ h]
  rw [show ((1 : Int) = ((1 : Nat) : Int)) from rfl, ← Nat.cast_max]

/-- Claim **C4**: for non-empty extracted text, the total estimated page count
is `max(1, ceil(len/3000))` — in closed form `(len + 2999) / 3000` — and the
page number stored for the chunk at ordinal `i` is
`max(1, ceil((i*800 / len) * estimatedPages))`, clamped to at least 1; in
closed form `max 1 ((i*800*pages + len - 1) / len)`. -/
theorem C4_page_numbering (d s : Nat) (text : List Char) (i : Nat) (row : ChunkRow)
    (hne : text ≠ []) (hrow : (chunkRows d s text)[i]? = some row) :
    estimatedPagesOf text.length = (((text.length + 2999) / 3000 : Nat) : Int) ∧
    row.page_number =
      max 1 (Int.ceil (((i * 800 : Nat) : ℚ) / (text.length : ℚ) *
        ((estimatedPagesOf text.length : Int) : ℚ))) ∧
    row.page_number =
      ((max 1 ((i * 800 * ((text.length + 2999) / 3000) + text.length - 1) /
        text.length) : Nat) : Int) ∧
    1 ≤ row.page_number := by
  have hlen : 1 ≤ text.length := List.length_pos.mpr hne
  have hpages := estimatedPagesOf_closed text.length hlen
  rw [chunkRows, List.getElem?_map, List.getElem?_enum] at hrow
  cases hc : (chunkText text)[i]? with
  | none =>
    rw [hc] at hrow
    simp at hrow
  | some c =>
    rw [hc] at hrow
    simp only [Option.map_some'] at hrow
    have hrow' : row = ⟨d, s, c,
        estimatePage (i * 800) text.length (estimatedPagesOf text.length), i⟩ :=
      (Option.some.inj hrow).symm
    subst hrow'
    refine ⟨hpages, rfl, ?_, ?_⟩
    · show estimatePage (i * 800) text.length (estimatedPagesOf text.length) = _
      rw [hpages, estimatePage_closed _ _ _ hlen]
    · show (1 : Int) ≤ estimatePage (i * 800) text.length (estimatedPagesOf text.length)
      exact le_max_left _ _

/-- Closed-input witness for `C4_page_numbering`. -/
theorem C4_witness :
    (['a'] : List Char) ≠ [] ∧
      (chunkRows 7 9 ['a'])[0]? = some ⟨7, 9, ['a'],
        estimatePage (0 * 800) (List.length ['a']) (estimatedPagesOf (List.length ['a'])),
        0⟩ ∧
      (1 : Int) ≤ estimatePage (0 * 800) (List.length ['a'])
        (estimatedPagesOf (List.length ['a'])) :=
  ⟨by decide, by rfl,
    (C4_page_numbering 7 9 ['a'] 0 _ (by decide) (by rfl)).2.2.2⟩

/-- JavaScript regex `\s` restricted to the ASCII range (the only characters
that remain after the permissive-decode-and-strip step). -/
def isJsWs (c : Char) : Bool :=
  c == ' ' || c == '\t' || c == '\n' || c == '\r' || c == '\x0b' || c == '\x0c'

/-- `replace(/[^\x20-\x7E\n\r\t]/g, " ")` (process-document/index.ts line 70,
part_002 line 101): every character outside printable ASCII, newline,
carriage return and tab becomes a space. -/
def stripNonPrintable (l : List Char) : List Char :=
  l.map (fun c =>
    if (0x20 ≤ c.toNat ∧ c.toNat ≤ 0x7E) ∨ c = '\n' ∨ c = '\r' ∨ c = '\t' then c
    else ' ')

/-- `replace(/\s{3,}/g, "\n")`: each maximal run of 3 or more whitespace
characters becomes one newline, shorter runs are kept.  Structural recursion
on a fuel that the wrapper instantiates with the list length (each step
consumes at least one character, so that fuel always suffices). -/
def collapseRunsGo : Nat → List Char → List Char
  | 0, l => l
  | _ + 1, [] => []
  | fuel + 1, c :: rest =>
    if isJsWs c then
      let run := (c :: rest).takeWhile isJsWs
      let rest2 := (c :: rest).dropWhile isJsWs
      (if 3 ≤ run.length then ['\n'] else run) ++ collapseRunsGo fuel rest2
    else c :: collapseRunsGo fuel rest

def collapseRuns (l : List Char) : List Char :=
  collapseRunsGo l.length l

/-- JavaScript `String.prototype.trim` over the modelled character set. -/
def jsTrim (l : List Char) : List Char :=
  ((l.dropWhile isJsWs).reverse.dropWhile isJsWs).reverse

/-- JavaScript `split("\n")`: keeps empty segments, and the empty string
splits to one empty segment. -/
def splitNlGo : List Char → List Char → List (List Char)
  | [], acc => [acc.reverse]
  | c :: rest, acc =>
    if c = '\n' then acc.reverse :: splitNlGo rest []
    else splitNlGo rest (c :: acc)

def splitNl (l : List Char) : List (List Char) :=
  splitNlGo l []

/-- JavaScript `join("\n")`. -/
def joinNl (ls : List (List Char)) : List Char :=
  List.intercalate ['\n'] ls

/-- The lines kept by the heuristic fallback
(process-document/index.ts lines 70-73, part_002 lines 100-103):
`text.split("\n").filter(l => l.trim().length > 10)` applied to the
stripped, collapsed, trimmed text. -/
def heuristicLines (raw : List Char) : List (List Char) :=
  (splitNl (jsTrim (collapseRuns (stripNonPrintable raw)))).filter
    (fun l => 10 < (jsTrim l).length)

/-- The heuristic fallback extraction result: the kept lines re-joined. -/
def heuristicExtract (raw : List Char) : List Char :=
  joinNl (heuristicLines raw)

/-- Modelled from the spec's words, for the refinement comparison of claim
C7: "discard lines shorter than 10 characters after trimming", i.e. keep
every line whose trimmed length is at least 10. -/
def heuristicLinesSpec (raw : List Char) : List (List Char) :=
  (splitNl (jsTrim (collapseRuns (stripNonPrintable raw)))).filter
    (fun l => 10 ≤ (jsTrim l).length)

/-- Counterexample to claim **C7** as stated: on a line whose trimmed length
is exactly 10 the code (`l.trim().length > 10`) discards it, while the claim
("keeping every line with trimmed length ≥ 10") would keep it. -/
theorem C7_counterexample :
    heuristicLines "abcdefghij".toList = [] ∧
      heuristicLinesSpec "abcdefghij".toList = ["abcdefghij".toList] := by
  decide

/-- Claim **C7** amended: the heuristic fallback keeps exactly the lines of
the stripped/collapsed/trimmed text whose trimmed length is strictly greater
than 10 (equivalently, discards those of trimmed length ≤ 10). -/
theorem C7_heuristic_line_filter (raw l : List Char) :
    l ∈ heuristicLines raw ↔
      l ∈ splitNl (jsTrim (collapseRuns (stripNonPrintable raw))) ∧
        10 < (jsTrim l).length := by
  simp [heuristicLines, List.mem_filter]

/-- The fixed placeholder emitted when extraction is too poor
(process-document/index.ts lines 77-80, part_002 lines 107-109). -/
def placeholderText (filename : List Char) : List Char :=
  "[Document: ".toList ++ filename ++
    " - Text extraction was limited. The document may contain images or complex formatting.]".toList

/-- The text selected by the part_002 document processor before the
placeholder check (lines 45-105): `.txt` files use the file's decoded text;
`.pdf` files use the AI extraction when it returned at least 10 trimmed
characters, else the heuristic fallback over the permissively decoded bytes;
any other extension yields the empty string.  `aiOut = none` models both an
unavailable capability (non-ok response) and a missing message content, per
`aiData.choices?.[0]?.message?.content || ""`. -/
def preText (filename fileText decoded : List Char) (aiOut : Option (List Char)) :
    List Char :=
  if (".txt".toList).isSuffixOf filename then fileText
  else if (".pdf".toList).isSuffixOf filename then
    let t := aiOut.getD []
    if t = [] ∨ (jsTrim t).length < 10 then heuristicExtract decoded else t
  else []

/-- The extractor's final result: the placeholder when fewer than 10 usable
(trimmed) characters were obtained, the extracted text otherwise.  A total
function — the modelled lines 45-109 contain no `throw`. -/
def extractText (filename fileText decoded : List Char) (aiOut : Option (List Char)) :
    List Char :=
  let t := preText filename fileText decoded aiOut
  if t = [] ∨ (jsTrim t).length < 10 then placeholderText filename else t

theorem placeholderText_ne_nil (filename : List Char) :
    placeholderText filename ≠ [] := by
  intro h
  rw [placeholderText, List.append_assoc, List.append_eq_nil] at h
  have h1 : ("[Document: ".toList : List Char) ≠ [] := by decide
  exact h1 h.1

/-- Claim **C8**: extraction always returns some text (a total function with
a non-empty result), and whenever every extraction path produced fewer than
10 usable characters — including a 0-byte `.txt` file — the result is the
fixed placeholder naming the file. -/
theorem C8_extraction_placeholder (filename fileText decoded : List Char)
    (aiOut : Option (List Char)) :
    extractText filename fileText decoded aiOut ≠ [] ∧
      ((jsTrim (preText filename fileText decoded aiOut)).length < 10 →
        extractText filename fileText decoded aiOut =
          placeholderText filename) := by
  constructor
  · rw [extractText]
    by_cases hc : preText filename fileText decoded aiOut = [] ∨
        (jsTrim (preText filename fileText decoded aiOut)).length < 10
    · rw [if_pos hc]
      exact placeholderText_ne_nil filename
    · rw [if_neg hc]
      push_neg at hc
      exact hc.1
  · intro hshort
    rw [extractText, if_pos (Or.inr hshort)]

/-- Closed-input witness for `C8_extraction_placeholder`: a 0-byte `.txt`
file yields the placeholder. -/
theorem C8_witness :
    (jsTrim (preText "a.txt".toList [] [] none)).length < 10 ∧
      extractText "a.txt".toList [] [] none = placeholderText "a.txt".toList :=
  ⟨by decide, (C8_extraction_placeholder "a.txt".toList [] [] none).2 (by decide)⟩

/-- One chunk row as selected by the context-assembly queries
(`content, page_number, document_id`; `chunk_index` is only the sort key). -/
structure Chunk where
  content : List Char
  page_number : Option Nat
  document_id : Nat
deriving DecidableEq, Repr

/-- The line labels produced by the chat function's context assembler
(chat/index.ts lines 60-70, identically lines 246-256 of its mode-aware
variant): `cumulativeLine` starts at 1, each chunk's line `li` is rendered
as `L(startLine + li)` with `startLine = cumulativeLine`, and
`cumulativeLine` advances by the chunk's line count. -/
def chatChunkLabels : Nat → List Chunk → List (List Nat)
  | _, [] => []
  | cumulativeLine, c :: rest =>
    let lines := splitNl c.content
    ((List.range lines.length).map (fun li => cumulativeLine + li)) ::
      chatChunkLabels (cumulativeLine + lines.length) rest

/-- All labels of one assembled chat context, in rendering order. -/
def chatLabels (chunks : List Chunk) : List Nat :=
  (chatChunkLabels 1 chunks).flatten

/-- Total number of physical lines of the assembled context. -/
def totalContextLines (chunks : List Chunk) : Nat :=
  (chunks.map (fun c => (splitNl c.content).length)).sum

/-- The line labels produced by the study-set function's context assembler
(part_001 lines 58-66): chunk at index `idx` is numbered from
`startLine = idx * 50 + 1` regardless of how many lines preceded it. -/
def studyChunkLabels (chunks : List Chunk) : List (List Nat) :=
  chunks.enum.map (fun p =>
    (List.range (splitNl p.2.content).length).map (fun li => p.1 * 50 + 1 + li))

/-- All labels of one assembled study-set context, in rendering order. -/
def studyLabels (chunks : List Chunk) : List Nat :=
  (studyChunkLabels chunks).flatten

/-- Counterexample to claim **C1** as stated: the study-set pipeline does not
number lines cumulatively.  With a first chunk of 51 physical lines (50
newlines) and a second chunk, label `L51` is assigned twice — the labels are
neither strictly increasing nor duplicate-free (`L51` occurs twice). -/
theorem C1_counterexample :
    studyLabels [⟨List.replicate 50 '\n', none, 0⟩, ⟨['x'], none, 0⟩] =
        List.range' 1 51 ++ [51] ∧
      (studyLabels [⟨List.replicate 50 '\n', none, 0⟩, ⟨['x'], none, 0⟩]).count 51 = 2 := by
  decide

theorem chatChunkLabels_join (chunks : List Chunk) :
    ∀ cum, (chatChunkLabels cum chunks).flatten =
      List.range' cum (totalContextLines chunks) := by
  induction chunks with
  | nil =>
    intro cum
    simp [chatChunkLabels, totalContextLines]
  | cons c rest ih =>
    intro cum
    simp only [chatChunkLabels, List.flatten_cons, totalContextLines, List.map_cons,
      List.sum_cons]
    rw [ih (cum + (splitNl c.content).length)]
    have hmap : (List.range (splitNl c.content).length).map (fun li => cum + li) =
        List.range' cum (splitNl c.content).length :=
      (List.range'_eq_map_range cum _).symm
    rw [hmap, List.range'_append_1]
    congr 1
    simp only [totalContextLines]
    omega

/-- Claim **C1** amended: in the answer pipeline the labels are globally
cumulative — the assembled context carries exactly the labels
`L1, L2, …, Ln` in order (strictly increasing, no resets, no duplicates).
The study-set pipeline instead numbers the chunk at index `idx` from
`idx * 50 + 1`, which is not cumulative and duplicates labels as soon as a
chunk has more than 50 lines (see `C1_counterexample`). -/
theorem C1_answer_labels_cumulative (chunks : List Chunk) :
    chatLabels chunks = List.range' 1 (totalContextLines chunks) ∧
    List.Chain' (· < ·) (chatLabels chunks) ∧
    (chatLabels chunks).Nodup := by
  have h : chatLabels chunks = List.range' 1 (totalContextLines chunks) :=
    chatChunkLabels_join chunks 1
  refine ⟨h, ?_, ?_⟩
  · rw [h]
    exact (List.pairwise_lt_range' 1 _).chain'
  · rw [h]
    exact List.nodup_range' 1 _

/-- A citation of the structured `respond` payload. -/
structure Citation where
  filename : String
  page : String
deriving DecidableEq, Repr

/-- An evidence item of the structured `respond` payload (`section` is a Lean
keyword, hence `sect`). -/
structure Evidence where
  quote : String
  page : String
  sect : String
  lines : String
deriving DecidableEq, Repr

/-- The answer payload `{content, citations, evidence, confidence}`. -/
structure AnswerResult where
  content : String
  citations : List Citation
  evidence : List Evidence
  confidence : String
deriving DecidableEq, Repr

/-- The fixed no-notes response (chat/index.ts lines 41-46). -/
def noNotesResult : AnswerResult :=
  ⟨"I don't have any notes to reference yet. Please upload some documents first.",
    [], [], "Low"⟩

/-- `"Sorry, I couldn't generate a response."` (chat/index.ts lines 163/166). -/
def apologyContent : String := "Sorry, I couldn't generate a response."

/-- The upstream generation outcome as observed by a handler: a non-ok HTTP
status, or an ok response carrying the optional first tool call's
`arguments` string and the optional plain message content. -/
inductive GenResponse where
  | httpError (status : Nat)
  | success (toolArgs : Option String) (msgContent : Option String)
deriving DecidableEq, Repr

inductive ChatResponse where
  | ok (body : AnswerResult)
  | err (status : Nat) (msg : String)
deriving DecidableEq, Repr

def ChatResponse.isErr : ChatResponse → Bool
  | .ok _ => false
  | .err _ _ => true

/-- A row inserted into `chat_messages` (the user row carries no
citations/evidence/confidence). -/
structure LogRow where
  role : String
  content : String
  citations : Option (List Citation)
  evidence : Option (List Evidence)
  confidence : Option String
deriving DecidableEq, Repr

/-- What the chat handler reads from the store: the subject row (if any) and
the subject's chunks ordered by `chunk_index`.  A null/empty chunk result
(`!chunks || chunks.length === 0`) is modelled as the empty list. -/
structure ChatDb where
  subjectName : Option String
  chunks : List Chunk
deriving DecidableEq, Repr

structure ChatOutcome where
  response : ChatResponse
  genInvoked : Bool
  logged : List LogRow
deriving DecidableEq, Repr

/-- The chat request handler (chat/index.ts lines 8-186; the mode-aware
variant behaves identically in everything modelled here), with the upstream
call abstracted by `gen` and `JSON.parse` of the tool-call arguments
abstracted by `parseArgs` (`none` models the parse exception).  `logged`
collects the `chat_messages` inserts in program order. -/
def chatHandler (db : ChatDb) (question : String) (gen : GenResponse)
    (parseArgs : String → Option AnswerResult) : ChatOutcome :=
  match db.subjectName with
  | none => ⟨.err 404 "Subject not found", false, []⟩
  | some _ =>
    if db.chunks = [] then
      ⟨.ok noNotesResult, false, []⟩
    else
      match gen with
      | .httpError status =>
        if status = 429 then
          ⟨.err 429 "Rate limit exceeded. Please try again shortly.", true, []⟩
        else if status = 402 then
          ⟨.err 402 "Usage limit reached. Please add credits.", true, []⟩
        else
          ⟨.err 500 ("AI request failed: " ++ toString status), true, []⟩
      | .success toolArgs msgContent =>
        let fallback : AnswerResult :=
          ⟨msgContent.getD apologyContent, [], [], "Medium"⟩
        let result :=
          match toolArgs with
          | some args => (parseArgs args).getD fallback
          | none => fallback
        ⟨.ok result, true,
          [⟨"user", question, none, none, none⟩,
            ⟨"assistant", result.content, some result.citations,
              some result.evidence, some result.confidence⟩]⟩

/-- The study-set payload `{mcqs, shortAnswers}`, items kept opaque. -/
structure StudySet where
  mcqs : List String
  shortAnswers : List String
deriving DecidableEq, Repr

inductive StudyResponse where
  | ok (body : StudySet)
  | err (status : Nat) (msg : String)
deriving DecidableEq, Repr

structure StudyOutcome where
  response : StudyResponse
  genInvoked : Bool
deriving DecidableEq, Repr

/-- The study-set request handler (part_001 lines 8-171): a non-ok upstream
response throws (caught as a 500); the regex-extract-then-`JSON.parse` step
is abstracted by `parse` (`none` models both "no JSON found" and a parse
exception), a failed parse falling back to the empty result set. -/
def studyHandler (db : ChatDb) (gen : GenResponse)
    (parse : String → Option StudySet) : StudyOutcome :=
  match db.subjectName with
  | none => ⟨.err 404 "Subject not found", false⟩
  | some _ =>
    if db.chunks = [] then
      ⟨.ok ⟨[], []⟩, false⟩
    else
      match gen with
      | .httpError status =>
        ⟨.err 500 ("AI request failed: " ++ toString status), true⟩
      | .success _ msgContent =>
        ⟨.ok ((parse (msgContent.getD "")).getD ⟨[], []⟩), true⟩

/-- Claim **C2**: for a subject that exists but has zero chunks, the answer
request returns exactly the fixed no-notes result and the study-set request
returns exactly `{mcqs: [], shortAnswers: []}`; in both cases the generation
capability is never invoked (and nothing is logged). -/
theorem C2_zero_chunks_short_circuit (name question : String)
    (gen gen2 : GenResponse) (parseArgs : String → Option AnswerResult)
    (parse : String → Option StudySet) (db : ChatDb)
    (hname : db.subjectName = some name) (hchunks : db.chunks = []) :
    chatHandler db question gen parseArgs = ⟨.ok noNotesResult, false, []⟩ ∧
    studyHandler db gen2 parse = ⟨.ok ⟨[], []⟩, false⟩ := by
  constructor
  · simp [chatHandler, hname, hchunks]
  · simp [studyHandler, hname, hchunks]

/-- Closed-input witness for `C2_zero_chunks_short_circuit`. -/
theorem C2_witness :
    (ChatDb.mk (some "Biology") []).subjectName = some "Biology" ∧
    (ChatDb.mk (some "Biology") []).chunks = [] ∧
    (chatHandler ⟨some "Biology", []⟩ "q" (.success none none) (fun _ => none) =
        ⟨.ok noNotesResult, false, []⟩ ∧
      studyHandler ⟨some "Biology", []⟩ (.success none none) (fun _ => none) =
        ⟨.ok ⟨[], []⟩, false⟩) :=
  ⟨rfl, rfl,
    C2_zero_chunks_short_circuit "Biology" "q" _ _ _ _ _ rfl rfl⟩

/-- Claim **C5**: when the structured (tool-call) output fails to parse, the
chat handler falls back to the capability's raw text as `content` with empty
citations, empty evidence and confidence `Medium`, returned as a success —
the malformed output is never surfaced as an error response. -/
theorem C5_malformed_output_fallback (db : ChatDb) (name question args : String)
    (msgContent : Option String) (parseArgs : String → Option AnswerResult)
    (hname : db.subjectName = some name) (hchunks : db.chunks ≠ [])
    (hparse : parseArgs args = none) :
    (chatHandler db question (.success (some args) msgContent) parseArgs).response =
      .ok ⟨msgContent.getD apologyContent, [], [], "Medium"⟩ := by
  simp [chatHandler, hname, hchunks, hparse]

/-- Closed-input witness for `C5_malformed_output_fallback`. -/
theorem C5_witness :
    (ChatDb.mk (some "Bio") [⟨['m'], some 1, 0⟩]).subjectName = some "Bio" ∧
    (ChatDb.mk (some "Bio") [⟨['m'], some 1, 0⟩]).chunks ≠ [] ∧
    (fun _ : String => (none : Option AnswerResult)) "bad" = none ∧
    (chatHandler ⟨some "Bio", [⟨['m'], some 1, 0⟩]⟩ "q"
        (.success (some "bad") (some "raw text")) (fun _ => none)).response =
      .ok ⟨(some "raw text").getD apologyContent, [], [], "Medium"⟩ :=
  ⟨rfl, List.cons_ne_nil _ _, rfl,
    C5_malformed_output_fallback _ "Bio" "q" "bad" _ _ rfl (List.cons_ne_nil _ _) rfl⟩

/-- Claim **C10**: the chat handler inserts no `chat_messages` rows on any
error response (subject not found, rate limit, quota, thrown failure) nor on
the zero-chunk short-circuit; rows appear exactly when a generation result
(structured or fallback) was produced, and then they are the user turn
followed by the assistant turn carrying that result. -/
theorem C10_log_only_after_result (db : ChatDb) (question : String)
    (gen : GenResponse) (parseArgs : String → Option AnswerResult) :
    ((chatHandler db question gen parseArgs).response.isErr = true →
      (chatHandler db question gen parseArgs).logged = []) ∧
    (db.chunks = [] → (chatHandler db question gen parseArgs).logged = []) ∧
    ((chatHandler db question gen parseArgs).logged ≠ [] →
      ∃ toolArgs msgContent r,
        gen = .success toolArgs msgContent ∧
        (chatHandler db question gen parseArgs).response = .ok r ∧
        (chatHandler db question gen parseArgs).logged =
          [⟨"user", question, none, none, none⟩,
            ⟨"assistant", r.content, some r.citations, some r.evidence,
              some r.confidence⟩]) := by
  rcases db with ⟨sub, chunks⟩
  cases sub with
  | none =>
    refine ⟨fun _ => ?_, fun _ => ?_, fun hne => ?_⟩ <;>
      simp [chatHandler] at *
  | some nm =>
    by_cases hch : chunks = []
    · refine ⟨fun _ => ?_, fun _ => ?_, fun hne => ?_⟩ <;>
        simp [chatHandler, hch] at *
    · cases gen with
      | httpError status =>
        by_cases h429 : status = 429
        · refine ⟨fun _ => ?_, fun h => ?_, fun hne => ?_⟩ <;>
            simp [chatHandler, hch, h429] at *
        · by_cases h402 : status = 402
          · refine ⟨fun _ => ?_, fun h => ?_, fun hne => ?_⟩ <;>
              simp [chatHandler, hch, h429, h402] at *
          · refine ⟨fun _ => ?_, fun h => ?_, fun hne => ?_⟩ <;>
              simp [chatHandler, hch, h429, h402] at *
      | success toolArgs msgContent =>
        refine ⟨fun habs => ?_, fun h => ?_, fun _ => ?_⟩
        · simp [chatHandler, hch, ChatResponse.isErr] at habs
        · exact absurd h hch
        · refine ⟨toolArgs, msgContent, ?_⟩
          simp only [chatHandler, hch, if_neg hch]
          exact ⟨_, by trivial, rfl, rfl⟩

/-- Closed-input witness for `C10_log_only_after_result`: an error response
logs nothing, the zero-chunk short-circuit logs nothing, and a produced
result logs the two turns. -/
theorem C10_witness :
    ((chatHandler ⟨none, []⟩ "q" (.success none none)
          (fun _ => none)).response.isErr = true ∧
      (chatHandler ⟨none, []⟩ "q" (.success none none) (fun _ => none)).logged = []) ∧
    ((ChatDb.mk (some "Bio") []).chunks = [] ∧
      (chatHandler ⟨some "Bio", []⟩ "q" (.success none none) (fun _ => none)).logged = []) ∧
    ((chatHandler ⟨some "Bio", [⟨['m'], none, 0⟩]⟩ "q" (.success none none)
          (fun _ => none)).logged ≠ [] ∧
      ∃ toolArgs msgContent r,
        (GenResponse.success none none) = .success toolArgs msgContent ∧
        (chatHandler ⟨some "Bio", [⟨['m'], none, 0⟩]⟩ "q" (.success none none)
            (fun _ => none)).response = .ok r ∧
        (chatHandler ⟨some "Bio", [⟨['m'], none, 0⟩]⟩ "q" (.success none none)
            (fun _ => none)).logged =
          [⟨"user", "q", none, none, none⟩,
            ⟨"assistant", r.content, some r.citations, some r.evidence,
              some r.confidence⟩]) :=
  ⟨⟨rfl, (C10_log_only_after_result ⟨none, []⟩ "q" (.success none none)
      (fun _ => none)).1 rfl⟩,
    ⟨rfl, (C10_log_only_after_result ⟨some "Bio", []⟩ "q" (.success none none)
      (fun _ => none)).2.1 rfl⟩,
    ⟨by simp [chatHandler, apologyContent],
      (C10_log_only_after_result ⟨some "Bio", [⟨['m'], none, 0⟩]⟩ "q"
          (.success none none) (fun _ => none)).2.2
        (by simp [chatHandler, apologyContent])⟩⟩

inductive ProcResponse where
  | ok (chunksCreated : Nat)
  | err (status : Nat) (msg : String)
deriving DecidableEq, Repr

/-- Outcome of a document-processing run: the HTTP response and the chunk
rows whose insertion was attempted. -/
structure ProcOutcome where
  response : ProcResponse
  insertedRows : List ChunkRow
deriving DecidableEq, Repr

/-- The tail of the part_002 document processor after text extraction
(lines 111-139): it verifies the owning document still exists immediately
before inserting (`docCheck`, lines 115-119) and, when it has vanished,
throws — caught by the boundary handler, logged, and answered as a 500 —
with nothing inserted and no retry (the model performs a single pass).
`insertError` abstracts the store's answer to the bulk insert. -/
def processTailChecked (documentId subjectId : Nat) (text : List Char)
    (docExists : Bool) (insertError : Option String) : ProcOutcome :=
  if ¬ docExists then
    ⟨.err 500 "Document was deleted before processing completed", []⟩
  else
    let rows := chunkRows documentId subjectId text
    match insertError with
    | some m => ⟨.err 500 ("Failed to insert chunks: " ++ m), rows⟩
    | none => ⟨.ok rows.length, rows⟩

/-- The tail of the basic process-document handler after text extraction
(process-document/index.ts lines 82-104): there is no document-existence
check — the rows are built and their insertion attempted regardless of
`docExists`. -/
def processTailUnchecked (documentId subjectId : Nat) (text : List Char)
    (docExists : Bool) (insertError : Option String) : ProcOutcome :=
  let rows := chunkRows documentId subjectId text
  match insertError with
  | some m => ⟨.err 500 ("Failed to insert chunks: " ++ m), rows⟩
  | none => ⟨.ok rows.length, rows⟩

/-- Counterexample to claim **C6** as stated ("for every document-processing
request"): the basic processor variant performs no existence check and still
attempts the chunk insert when the owning document has vanished
(`docExists = false`). -/
theorem C6_counterexample :
    (processTailUnchecked 1 2 ['a'] false none).insertedRows.length = 1 ∧
      (processTailUnchecked 1 2 ['a'] false none).response = .ok 1 :=
  ⟨rfl, rfl⟩

/-- Claim **C6** amended: the AI-extraction document processor (part_002)
verifies the owning document immediately before inserting chunk rows and,
when it has vanished, aborts as a logged failure — inserting no chunks and
performing no retry; the basic variant (process-document/index.ts) performs
no such check (see `C6_counterexample`). -/
theorem C6_vanished_document_aborts_insert (documentId subjectId : Nat)
    (text : List Char) (docExists : Bool) (insertError : Option String)
    (hgone : docExists = false) :
    processTailChecked documentId subjectId text docExists insertError =
      ⟨.err 500 "Document was deleted before processing completed", []⟩ := by
  subst hgone
  rfl

/-- Closed-input witness for `C6_vanished_document_aborts_insert`. -/
theorem C6_witness :
    (false = false) ∧
      processTailChecked 1 2 ['a'] false none =
        ⟨.err 500 "Document was deleted before processing completed", []⟩ :=
  ⟨rfl, C6_vanished_document_aborts_insert 1 2 ['a'] false none rfl⟩
